import Mathlib

/-!
Verification of `application/utils.py` of the Voice-Cloning-App repository.

The Python module is shallowly embedded:
* free-text log lines and the socket events they become are modelled by `Event`;
* `SocketIOHandler.emit` is the log bridge (raising Python exceptions become
  `Except.error`);
* `background_task` is modelled as a function of the task's outcome (the list
  of events the task emitted through the logger plus an optional exception);
* `start_progress_thread` is modelled as a transition on a runner state whose
  `active` field records the background tasks spawned so far and `thread` is
  the global slot;
* `import_dataset` is modelled as a function from an archive, an environment
  of external collaborators (`convert_audio`, `librosa.get_duration`, the
  `MIN_LENGTH`/`MAX_LENGTH` constants) and the three path arguments to the
  ordered list of filesystem/log actions it performs together with an optional
  raised exception.  Durations (Python floats) are modelled by `Rat`.

Python string primitives are re-implemented over `List Char` by structural
recursion so that every definition evaluates inside the kernel.
-/

/-- Python `str.split(sep)` for a one-character separator, on character lists:
all segments are kept, including empty ones (`"".split(c) == [""]`). -/
def splitOnChar (c : Char) : List Char → List (List Char)
  | [] => [[]]
  | x :: xs =>
    let r := splitOnChar c xs
    if x = c then [] :: r
    else
      match r with
      | [] => [[x]]
      | t :: ts => (x :: t) :: ts

/-- Python `str.split(sep)` for a one-character separator. -/
def pySplit (s : String) (c : Char) : List String :=
  (splitOnChar c s.data).map (fun l => ⟨l⟩)

/-- Python `str.startswith(pre)`. -/
def pyStartsWith (s pre : String) : Bool :=
  pre.data.isPrefixOf s.data

/-- Python `str.endswith(suf)`. -/
def pyEndsWith (s suf : String) : Bool :=
  suf.data.isSuffixOf s.data

/-- Python `sep in s` for a one-character `sep`. -/
def pyContainsChar (s : String) (c : Char) : Bool :=
  s.data.contains c

/-- Python `str.replace("\r\n", "\n")` on character lists: left-to-right,
non-overlapping. -/
def replaceCRLFChars : List Char → List Char
  | '\r' :: '\n' :: rest => '\n' :: replaceCRLFChars rest
  | c :: rest => c :: replaceCRLFChars rest
  | [] => []

/-- Python `str.replace("\r\n", "\n")`. -/
def replaceCRLF (s : String) : String :=
  ⟨replaceCRLFChars s.data⟩

/-- Python `str.replace("Status -", "")` on character lists: every occurrence
of the eight-character marker is removed, left-to-right, non-overlapping. -/
def removeStatusMarkerChars : List Char → List Char
  | 'S' :: 't' :: 'a' :: 't' :: 'u' :: 's' :: ' ' :: '-' :: rest =>
      removeStatusMarkerChars rest
  | c :: rest => c :: removeStatusMarkerChars rest
  | [] => []

/-- Python `str.replace("Status -", "")`. -/
def removeStatusMarker (s : String) : String :=
  ⟨removeStatusMarkerChars s.data⟩

/-- A socket event emitted to the frontend, as handled in `application.js`:
`progress`, `status`, `logs`, `error`, `done`. -/
inductive Event where
  | progress (number total : String)
  | status (text : String)
  | logs (text : String)
  | error (type text stacktrace : String)
  | done
  deriving DecidableEq, Repr

/-- A Python exception value as observed by `background_task`:
`e.__class__.__name__`, `str(e)` and `traceback.format_exc()`. -/
structure Exc where
  className : String
  str : String
  traceback : String
  deriving DecidableEq, Repr

/-- `SocketIOHandler.emit` (utils.py lines 21-30).  For a record whose message
is `text`: lines starting with `"Progress"` are split on `"-"`, element `[1]`
is split on `"/"` and unpacked into `current, total`; lines starting with
`"Status"` have every occurrence of `"Status -"` replaced by `""`; all other
lines become plain log events.  A missing `"-"` raises `IndexError`, and a
`"/"`-split that does not have exactly two parts raises `ValueError`; raising
is modelled by `Except.error`. -/
def SocketIOHandler.emit (text : String) : Except String Event :=
  if pyStartsWith text "Progress" then
    match pySplit text '-' with
    | _ :: second :: _ =>
      match pySplit second '/' with
      | [current, total] => Except.ok (Event.progress current total)
      | _ => Except.error "ValueError: unpacking"
    | _ => Except.error "IndexError: list index out of range"
  else if pyStartsWith text "Status" then
    Except.ok (Event.status (removeStatusMarker text))
  else
    Except.ok (Event.logs text)

/-- Terminal events of a job: `error` and `done`. -/
def isTerminal : Event → Bool
  | Event.error _ _ _ => true
  | Event.done => true
  | _ => false

/-- `background_task` (utils.py lines 40-61).  The task function is modelled
by its outcome: the events it emitted through the logger while running, and
`some e` when it raised exception `e` (`none` when it returned).  The result
is the full list of events emitted by the run together with the exception
re-raised by `background_task`, if any: on failure the error event is emitted
and the same exception re-raised; on success a `done` event is emitted. -/
def background_task (run : List Event × Option Exc) : List Event × Option Exc :=
  match run.2 with
  | some e => (run.1 ++ [Event.error e.className e.str e.traceback], some e)
  | none => (run.1 ++ [Event.done], none)

/-- The process-wide state seen by `start_progress_thread`: the global
`thread` slot (utils.py line 37), the identifiers of the background tasks
spawned so far and still running (`socketio.start_background_task` spawns a
task that keeps running on its own), and a counter supplying the next task
identifier. -/
structure RunnerState where
  thread : Option Nat
  active : List Nat
  next_id : Nat
  deriving DecidableEq, Repr

/-- `start_progress_thread` (utils.py lines 64-77): unconditionally spawns a
new background task and overwrites the global `thread` slot with it.  Nothing
inspects the current slot, so a previously spawned task keeps running. -/
def start_progress_thread (s : RunnerState) : RunnerState :=
  { thread := some s.next_id
    active := s.active ++ [s.next_id]
    next_id := s.next_id + 1 }

/-- Python `list.index`: position of the first occurrence, `none` when the
element is absent (where Python raises `ValueError`). -/
def list_index : List String → String → Option Nat
  | [], _ => none
  | x :: xs, p => if x = p then some 0 else (list_index xs p).map (· + 1)

/-- `get_next_url` (utils.py lines 80-98).  `urls` is `list(urls.keys())` of
the Python dict passed in: its keys in insertion order.  `urls.index(path)`
raises `ValueError` when `path` is not a key (modelled by `Except.error`);
otherwise the key at the next index is returned, or `""` when `path` was the
last key. -/
def get_next_url (urls : List String) (path : String) : Except String String :=
  match list_index urls path with
  | none => Except.error (path ++ " is not in list")
  | some i => Except.ok (if i + 1 < urls.length then urls.getD (i + 1) "" else "")

/-- A raised Python exception in the import pipeline: class name and message.
The four structural checks and the duration check raise `AssertionError`;
errors of the external collaborators propagate as-is. -/
structure PyError where
  type : String
  msg : String
  deriving DecidableEq, Repr

/-- One observable side effect of `import_dataset`, in program order:
directory creation (`os.makedirs`), file write (`open(..., "w"/"wb")` plus
`write`), file removal (`os.remove`), rename (`os.rename`), the external
`save_dataset_info` call, and a `logging.info` line. -/
inductive FsAction where
  | makedirs (path : String)
  | writeFile (path data : String)
  | removeFile (path : String)
  | renameFile (src dst : String)
  | saveDatasetInfo (metadataPath wavsDir infoPath : String) (clip_lengths : List Rat)
  | logInfo (text : String)
  deriving DecidableEq, Repr

/-- The opened zip archive: `z.namelist()` and `z.read(name)` (the bytes of a
member; for `metadata.csv` the model holds the text after UTF-8 decoding). -/
structure ZipArchive where
  namelist : List String
  readFile : String → String

/-- External collaborators of the pipeline: `convert_audio` from
`dataset.audio_processing` (path → normalized-file path, may raise),
`librosa.get_duration` (path → duration in seconds, may raise; floats are
modelled by `Rat`), and the constants `MIN_LENGTH`/`MAX_LENGTH` imported from
`dataset.clip_generator`. -/
structure Env where
  convert_audio : String → Except PyError String
  get_duration : String → Except PyError Rat
  MIN_LENGTH : Rat
  MAX_LENGTH : Rat

/-- `files_list = z.namelist()` (utils.py line 156). -/
def files_list (z : ZipArchive) : List String :=
  z.namelist

/-- `folders = [x.split("/")[0] for x in files_list if "/" in x]`
(utils.py line 161). -/
def folders (z : ZipArchive) : List String :=
  (files_list z |>.filter (fun x => pyContainsChar x '/')).map
    (fun x => (pySplit x '/').headD "")

/-- `wavs = [x for x in files_list if x.startswith("wavs/") and
x.endswith(".wav")]` (utils.py line 166). -/
def wavs_of (z : ZipArchive) : List String :=
  files_list z |>.filter (fun x => pyStartsWith x "wavs/" && pyEndsWith x ".wav")

/-- `metadata = z.read("metadata.csv").decode("utf-8", "ignore").replace("\r\n", "\n")`
(utils.py line 169); decoding is the identity in the model. -/
def metadata_text (z : ZipArchive) : String :=
  replaceCRLF (z.readFile "metadata.csv")

/-- `num_metadata_rows = len([row for row in metadata.split("\n") if row])`
(utils.py line 170). -/
def num_metadata_rows (z : ZipArchive) : Nat :=
  ((pySplit (metadata_text z) '\n').filter (fun row => row ≠ "")).length

/-- `os.path.join(dataset_directory, "wavs", wav.split("/")[1])`
(utils.py line 191), with POSIX join of relative components spelled out.
Every element of `wavs_of` starts with `"wavs/"`, so index 1 exists. -/
def clip_path (dataset_directory wav : String) : String :=
  dataset_directory ++ "/wavs/" ++ ((pySplit wav '/').getD 1 "")

/-- The f-string of the duration assertion (utils.py line 198). -/
def duration_msg (env : Env) (wav : String) (duration : Rat) : String :=
  wav ++ " is an invalid duration (must be " ++ toString env.MIN_LENGTH ++ "-"
    ++ toString env.MAX_LENGTH ++ ", is " ++ toString duration ++ ")"

/-- Python dict assignment `d[k] = v` on an insertion-ordered association
list: an existing key keeps its position and gets the new value, a new key is
appended. -/
def dictInsert (d : List (String × String)) (k v : String) : List (String × String) :=
  match d with
  | [] => [(k, v)]
  | (k', v') :: rest => if k' = k then (k, v) :: rest else (k', v') :: dictInsert rest k v

/-- Result of the per-clip loop: the actions it performed, the final
`clip_lengths` list, the final `filenames` dict, and the exception that
aborted it, if any. -/
structure LoopResult where
  trace : List FsAction
  clip_lengths : List Rat
  filenames : List (String × String)
  err : Option PyError
  deriving Repr

/-- The per-clip loop of `import_dataset` (utils.py lines 188-202), processing
the remaining wav names with `i` the current index.  Each step writes the raw
bytes, calls `convert_audio`, probes the duration, asserts it lies in
`[MIN_LENGTH, MAX_LENGTH]` (raising with `duration_msg` otherwise), records
the duration and the `path → new_path` mapping, and logs the progress line;
any raise aborts the loop with the remaining clips unprocessed. -/
def clip_loop (env : Env) (z : ZipArchive) (dataset_directory : String) (total_wavs : Nat) :
    List String → Nat → List Rat → List (String × String) → LoopResult
  | [], _, cl, fn => ⟨[], cl, fn, none⟩
  | wav :: rest, i, cl, fn =>
    let data := z.readFile wav
    let path := clip_path dataset_directory wav
    match env.convert_audio path with
    | Except.error e => ⟨[FsAction.writeFile path data], cl, fn, some e⟩
    | Except.ok new_path =>
      match env.get_duration new_path with
      | Except.error e => ⟨[FsAction.writeFile path data], cl, fn, some e⟩
      | Except.ok duration =>
        if env.MIN_LENGTH ≤ duration ∧ duration ≤ env.MAX_LENGTH then
          let r := clip_loop env z dataset_directory total_wavs rest (i + 1)
                     (cl ++ [duration]) (dictInsert fn path new_path)
          ⟨FsAction.writeFile path data ::
             FsAction.logInfo ("Progress - " ++ toString (i + 1) ++ "/" ++ toString total_wavs) ::
             r.trace,
           r.clip_lengths, r.filenames, r.err⟩
        else
          ⟨[FsAction.writeFile path data], cl, fn,
            some ⟨"AssertionError", duration_msg env wav duration⟩⟩

/-- Assertion message of utils.py line 159. -/
def missing_metadata_msg : String :=
  "Dataset missing metadata.csv. Make sure this file is in the root of the zip file"

/-- Assertion message of utils.py line 164. -/
def missing_wavs_msg : String :=
  "Dataset missing wavs folder. Make sure this folder is in the root of the zip file"

/-- Assertion message of utils.py line 167. -/
def no_wavs_msg : String :=
  "No wavs found in wavs folder"

/-- Assertion message of utils.py line 173. -/
def count_mismatch_msg (z : ZipArchive) : String :=
  "Number of wavs and labels do not match. metadata: " ++ toString (num_metadata_rows z)
    ++ ", wavs: " ++ toString (wavs_of z).length

/-- The four structural validations of utils.py lines 157-173, as one
predicate: `metadata.csv` at the archive root, a top-level `wavs` folder, a
non-empty wav list, and wav count equal to the non-empty metadata row count. -/
def structurally_valid (z : ZipArchive) : Prop :=
  "metadata.csv" ∈ files_list z ∧ "wavs" ∈ folders z ∧ wavs_of z ≠ [] ∧
    (wavs_of z).length = num_metadata_rows z

instance (z : ZipArchive) : Decidable (structurally_valid z) := by
  unfold structurally_valid
  infer_instance

/-- The actions of utils.py lines 175-182: the two `os.makedirs` calls and the
metadata write, with their log lines. -/
def import_pre (z : ZipArchive) (dataset_directory audio_folder : String) : List FsAction :=
  [FsAction.logInfo "Creating directory",
   FsAction.makedirs dataset_directory,
   FsAction.makedirs audio_folder,
   FsAction.logInfo "Saving files",
   FsAction.writeFile (dataset_directory ++ "/metadata.csv") (metadata_text z)]

/-- The per-clip loop as entered by `import_dataset`: over all of `wavs`, from
index 0, with empty `clip_lengths` and `filenames`. -/
def import_loop (env : Env) (z : ZipArchive) (dataset_directory : String) : LoopResult :=
  clip_loop env z dataset_directory (wavs_of z).length (wavs_of z) 0 [] []

/-- The delete-then-rename swap of utils.py lines 206-208, in the insertion
order of the `filenames` dict. -/
def swap_actions (fn : List (String × String)) : List FsAction :=
  fn.flatMap (fun kv => [FsAction.removeFile kv.1, FsAction.renameFile kv.2 kv.1])

/-- The body of the `try` block of `import_dataset` (utils.py lines 155-217):
the four structural assertions, then directory creation, metadata write, the
per-clip loop, the delete-then-rename swap over the recorded `filenames`
mapping, and the `save_dataset_info` call.  Returns the actions performed in
order and the exception that aborted the body, if any. -/
def import_body (env : Env) (z : ZipArchive) (dataset_directory audio_folder : String) :
    List FsAction × Option PyError :=
  if "metadata.csv" ∈ files_list z then
    if "wavs" ∈ folders z then
      if wavs_of z ≠ [] then
        if (wavs_of z).length = num_metadata_rows z then
          let r := import_loop env z dataset_directory
          match r.err with
          | some e => (import_pre z dataset_directory audio_folder ++ r.trace, some e)
          | none =>
            (import_pre z dataset_directory audio_folder ++ r.trace
              ++ (FsAction.logInfo "Deleting temp files" :: swap_actions r.filenames)
              ++ [FsAction.logInfo "Creating info file",
                  FsAction.saveDatasetInfo (dataset_directory ++ "/metadata.csv")
                    (dataset_directory ++ "/wavs") (dataset_directory ++ "/info.json")
                    r.clip_lengths],
             none)
        else ([], some ⟨"AssertionError", count_mismatch_msg z⟩)
      else ([], some ⟨"AssertionError", no_wavs_msg⟩)
    else ([], some ⟨"AssertionError", missing_wavs_msg⟩)
  else ([], some ⟨"AssertionError", missing_metadata_msg⟩)

/-- `import_dataset` (utils.py lines 131-222).  The `try`/`except`/fall-through
structure deletes the archive exactly once on every path: on an exception the
`except` clause removes the zip and re-raises (line 219-220), on success the
final statement removes it (line 222). -/
def import_dataset (env : Env) (z : ZipArchive) (dataset dataset_directory audio_folder : String) :
    List FsAction × Option PyError :=
  let r := import_body env z dataset_directory audio_folder
  (r.1 ++ [FsAction.removeFile dataset], r.2)

-- concrete inputs used by the witnesses
/-- A well-formed two-clip archive. -/
def sampleArchive : ZipArchive :=
  ⟨["metadata.csv", "wavs/a.wav", "wavs/b.wav"],
   fun n => if n = "metadata.csv" then "a|hi\r\nb|yo\n" else "DATA"⟩

/-- An archive with no `metadata.csv`. -/
def badArchive : ZipArchive :=
  ⟨["wavs/a.wav"], fun _ => ""⟩

/-- An environment whose probe always reports 5 seconds, inside the `[1, 10]`
bounds. -/
def sampleEnv : Env :=
  ⟨fun p => Except.ok (p ++ ".flac"), fun _ => Except.ok 5, 1, 10⟩

/-- An environment whose probe always reports 12 seconds, outside the `[1, 10]`
bounds. -/
def sampleEnvBad : Env :=
  ⟨fun p => Except.ok (p ++ ".flac"), fun _ => Except.ok 12, 1, 10⟩

/-- Recognizes `os.rename` actions. -/
def is_rename : FsAction → Bool
  | FsAction.renameFile _ _ => true
  | _ => false

/-- Recognizes `os.remove` actions. -/
def is_remove : FsAction → Bool
  | FsAction.removeFile _ => true
  | _ => false

/-- The `progress` events obtained by feeding the log lines of an action trace
through the `SocketIOHandler` bridge, in trace order. -/
def progress_events (tr : List FsAction) : List Event :=
  tr.filterMap (fun a =>
    match a with
    | FsAction.logInfo t =>
      match SocketIOHandler.emit t with
      | Except.ok (Event.progress c n) => some (Event.progress c n)
      | _ => none
    | _ => none)

section RunnerTheorems

/-- C9: when the background task raises any error, the runner emits an `error`
event whose `type` is the exception's class name, whose `text` is its message
and which carries the stack trace, after all events the task emitted, and then
re-raises the very same exception to the caller of the background context. -/
theorem background_task_reraises (evs : List Event) (e : Exc) :
    background_task (evs, some e) =
      (evs ++ [Event.error e.className e.str e.traceback], some e) := rfl

/-- C5: for every run of the background runner whose task emitted only
non-terminal events through the logger, exactly one terminal event appears in
the run's event list and it is the last one; an `error` event appears iff the
task raised, and a `done` event appears iff it returned normally. -/
theorem background_task_one_terminal (evs : List Event) (exc : Option Exc)
    (h : ∀ ev ∈ evs, isTerminal ev = false) :
    ((background_task (evs, exc)).1.filter (fun ev => isTerminal ev)).length = 1 ∧
    (∃ t, (background_task (evs, exc)).1.getLast? = some t ∧ isTerminal t = true) ∧
    ((∃ k m tr, Event.error k m tr ∈ (background_task (evs, exc)).1) ↔ exc.isSome = true) ∧
    (Event.done ∈ (background_task (evs, exc)).1 ↔ exc = none) := by
  have hfilter : evs.filter (fun ev => isTerminal ev) = [] :=
    List.filter_eq_nil_iff.mpr (fun a ha => by simp [h a ha])
  cases exc with
  | none =>
    refine ⟨?_, ⟨Event.done, ?_, rfl⟩, ?_, ?_⟩
    · show ((evs ++ [Event.done]).filter (fun ev => isTerminal ev)).length = 1
      rw [List.filter_append, hfilter]
      rfl
    · simp [background_task, List.getLast?_concat]
    · constructor
      · rintro ⟨k, m, tr, hmem⟩
        have he : Event.error k m tr ∈ evs := by simpa [background_task] using hmem
        have := h _ he; simp [isTerminal] at this
      · intro hc; simp at hc
    · simp [background_task]
  | some e =>
    refine ⟨?_, ⟨Event.error e.className e.str e.traceback, ?_, rfl⟩, ?_, ?_⟩
    · show ((evs ++ [Event.error e.className e.str e.traceback]).filter
        (fun ev => isTerminal ev)).length = 1
      rw [List.filter_append, hfilter]
      rfl
    · simp [background_task, List.getLast?_concat]
    · constructor
      · intro _; rfl
      · intro _; exact ⟨e.className, e.str, e.traceback, by simp [background_task]⟩
    · constructor
      · intro hmem
        have hd : Event.done ∈ evs := by simpa [background_task] using hmem
        have := h _ hd; simp [isTerminal] at this
      · intro hc; simp at hc

/-- C5 witness: a concrete run with one log event and no exception. -/
theorem background_task_one_terminal_witness :
    ((background_task ([Event.logs "x"], none)).1.filter (fun ev => isTerminal ev)).length = 1 ∧
    (∃ t, (background_task ([Event.logs "x"], none)).1.getLast? = some t ∧ isTerminal t = true) ∧
    ((∃ k m tr, Event.error k m tr ∈ (background_task ([Event.logs "x"], none)).1) ↔
      (none : Option Exc).isSome = true) ∧
    (Event.done ∈ (background_task ([Event.logs "x"], none)).1 ↔ (none : Option Exc) = none) :=
  background_task_one_terminal [Event.logs "x"] none (by decide)

/-- C6 counterexample: starting a second job while the first is still active
is not rejected — after two starts from the initial state both tasks have been
spawned and are active, and the slot references only the second. -/
theorem start_progress_thread_interleaves :
    (start_progress_thread (start_progress_thread ⟨none, [], 0⟩)).active = [0, 1] ∧
    ¬ (start_progress_thread (start_progress_thread ⟨none, [], 0⟩)).active.length ≤ 1 ∧
    (start_progress_thread (start_progress_thread ⟨none, [], 0⟩)).thread = some 1 := by
  decide

/-- C6 (amended): `start_progress_thread` never rejects a start request: it
unconditionally spawns a new background task (any previously spawned task
keeps running, so two pipelines may interleave) and overwrites the process-wide
slot so that it names only the most recently started job. -/
theorem start_progress_thread_overwrites (s : RunnerState) :
    start_progress_thread s =
      ⟨some s.next_id, s.active ++ [s.next_id], s.next_id + 1⟩ := rfl

/-- C7 counterexample: the log bridge is not total — a line beginning with
`"Progress"` that contains no `"-"` raises `IndexError` instead of being
classified into an event. -/
theorem SocketIOHandler_emit_raises :
    SocketIOHandler.emit "Progressive" =
      Except.error "IndexError: list index out of range" := rfl

/-- C7 (amended): every line not beginning with `"Progress"` is classified
into exactly one event — `"Status"`-prefixed lines yield a `status` event with
every occurrence of `"Status -"` removed, all other lines a `logs` event with
the full line; a `"Progress"`-prefixed line yields a `progress` event whose
fields come from splitting the segment after the first `"-"` on `"/"` when
that is possible, and raises (`IndexError`/`ValueError`) otherwise. -/
theorem SocketIOHandler_emit_classification (text : String) :
    (pyStartsWith text "Progress" = false → pyStartsWith text "Status" = true →
      SocketIOHandler.emit text = Except.ok (Event.status (removeStatusMarker text))) ∧
    (pyStartsWith text "Progress" = false → pyStartsWith text "Status" = false →
      SocketIOHandler.emit text = Except.ok (Event.logs text)) ∧
    (∀ first second rest current total,
      pyStartsWith text "Progress" = true →
      pySplit text '-' = first :: second :: rest →
      pySplit second '/' = [current, total] →
      SocketIOHandler.emit text = Except.ok (Event.progress current total)) ∧
    (pyStartsWith text "Progress" = true → (pySplit text '-').length < 2 →
      SocketIOHandler.emit text = Except.error "IndexError: list index out of range") ∧
    (∀ first second rest,
      pyStartsWith text "Progress" = true →
      pySplit text '-' = first :: second :: rest →
      (pySplit second '/').length ≠ 2 →
      SocketIOHandler.emit text = Except.error "ValueError: unpacking") := by
  refine ⟨?_, ?_, ?_, ?_, ?_⟩
  · intro h1 h2; simp [SocketIOHandler.emit, h1, h2]
  · intro h1 h2; simp [SocketIOHandler.emit, h1, h2]
  · intro first second rest current total h1 h2 h3
    simp [SocketIOHandler.emit, h1, h2, h3]
  · intro h1 h2
    rcases hc : pySplit text '-' with _ | ⟨a, _ | ⟨b, tl⟩⟩
    · simp [SocketIOHandler.emit, h1, hc]
    · simp [SocketIOHandler.emit, h1, hc]
    · rw [hc] at h2; simp at h2; omega
  · intro first second rest h1 h2 h3
    rcases hp : pySplit second '/' with _ | ⟨x, _ | ⟨y, _ | ⟨z, tl⟩⟩⟩
    · simp [SocketIOHandler.emit, h1, h2, hp]
    · simp [SocketIOHandler.emit, h1, h2, hp]
    · rw [hp] at h3; simp at h3
    · simp [SocketIOHandler.emit, h1, h2, hp]

/-- C7 witness: the amended classification applied to concrete lines of each
kind. -/
theorem SocketIOHandler_emit_classification_witness :
    SocketIOHandler.emit "Status - hi" = Except.ok (Event.status " hi") ∧
    SocketIOHandler.emit "plain line" = Except.ok (Event.logs "plain line") ∧
    SocketIOHandler.emit "Progress - 3/10" = Except.ok (Event.progress " 3" "10") :=
  ⟨(SocketIOHandler_emit_classification "Status - hi").1 rfl rfl,
   (SocketIOHandler_emit_classification "plain line").2.1 rfl rfl,
   (SocketIOHandler_emit_classification "Progress - 3/10").2.2.1
     "Progress " " 3/10" [] " 3" "10" rfl rfl rfl⟩

end RunnerTheorems

section GetNextUrlTheorems

theorem list_index_eq_none_iff (urls : List String) (path : String) :
    list_index urls path = none ↔ path ∉ urls := by
  induction urls with
  | nil => simp [list_index]
  | cons x xs ih =>
    by_cases hx : x = path
    · subst hx; simp [list_index]
    · simp [list_index, hx, ih, Ne.symm hx]

theorem list_index_append (l₁ l₂ : List String) (path : String) (h : path ∉ l₁) :
    list_index (l₁ ++ path :: l₂) path = some l₁.length := by
  induction l₁ with
  | nil => simp [list_index]
  | cons x xs ih =>
    have hx : ¬ x = path := fun hc => h (hc ▸ List.mem_cons_self x xs)
    have hxs : path ∉ xs := fun hc => h (List.mem_cons_of_mem x hc)
    simp [list_index, hx, ih hxs]

/-- C10: `get_next_url` on the dict's key list: when `path` is not a key it
raises `ValueError`; when `path` occurs (first) after prefix `l₁`, it returns
the immediately following key, or `""` when `path` is the last key. -/
theorem get_next_url_spec (urls : List String) (path : String) :
    (path ∉ urls → get_next_url urls path = Except.error (path ++ " is not in list")) ∧
    (∀ l₁ l₂, urls = l₁ ++ path :: l₂ → path ∉ l₁ →
      get_next_url urls path = Except.ok (l₂.headD "")) := by
  constructor
  · intro h
    simp [get_next_url, (list_index_eq_none_iff urls path).mpr h]
  · intro l₁ l₂ hurls h
    subst hurls
    rw [get_next_url, list_index_append l₁ l₂ path h]
    cases l₂ with
    | nil =>
      have hlen : ¬ l₁.length + 1 < (l₁ ++ [path]).length := by
        simp
      simp [hlen]
    | cons b bs =>
      have hlen : l₁.length + 1 < (l₁ ++ path :: b :: bs).length := by
        simp only [List.length_append, List.length_cons]
        omega
      have hget : (l₁ ++ path :: b :: bs)[l₁.length + 1]? = some b := by
        rw [List.getElem?_append_right (Nat.le_succ_of_le (Nat.le_refl _))]
        simp
      simp [hlen, List.getD_eq_getElem?_getD, hget]

/-- C10 witness: a middle key, the last key, and a missing key. -/
theorem get_next_url_spec_witness :
    get_next_url ["a", "b", "c"] "b" = Except.ok "c" ∧
    get_next_url ["a", "b", "c"] "c" = Except.ok "" ∧
    get_next_url ["a", "b", "c"] "z" = Except.error ("z" ++ " is not in list") :=
  ⟨(get_next_url_spec ["a", "b", "c"] "b").2 ["a"] ["c"] rfl (by decide),
   (get_next_url_spec ["a", "b", "c"] "c").2 ["a", "b"] [] rfl (by decide),
   (get_next_url_spec ["a", "b", "c"] "z").1 (by decide)⟩

end GetNextUrlTheorems

section PipelineLemmas

theorem import_body_invalid (env : Env) (z : ZipArchive)
    (dataset_directory audio_folder : String) (hv : ¬ structurally_valid z) :
    ∃ msg, import_body env z dataset_directory audio_folder =
      ([], some ⟨"AssertionError", msg⟩) := by
  by_cases h1 : "metadata.csv" ∈ files_list z
  · by_cases h2 : "wavs" ∈ folders z
    · by_cases h3 : wavs_of z ≠ []
      · by_cases h4 : (wavs_of z).length = num_metadata_rows z
        · exact absurd ⟨h1, h2, h3, h4⟩ hv
        · exact ⟨count_mismatch_msg z, by simp [import_body, h1, h2, h3, h4]⟩
      · exact ⟨no_wavs_msg, by simp [import_body, h1, h2, h3]⟩
    · exact ⟨missing_wavs_msg, by simp [import_body, h1, h2]⟩
  · exact ⟨missing_metadata_msg, by simp [import_body, h1]⟩

theorem import_body_valid (env : Env) (z : ZipArchive)
    (dataset_directory audio_folder : String) (hv : structurally_valid z) :
    import_body env z dataset_directory audio_folder =
      (match (import_loop env z dataset_directory).err with
       | some e =>
         (import_pre z dataset_directory audio_folder
            ++ (import_loop env z dataset_directory).trace, some e)
       | none =>
         (import_pre z dataset_directory audio_folder
            ++ (import_loop env z dataset_directory).trace
            ++ (FsAction.logInfo "Deleting temp files"
                 :: swap_actions (import_loop env z dataset_directory).filenames)
            ++ [FsAction.logInfo "Creating info file",
                FsAction.saveDatasetInfo (dataset_directory ++ "/metadata.csv")
                  (dataset_directory ++ "/wavs") (dataset_directory ++ "/info.json")
                  (import_loop env z dataset_directory).clip_lengths],
          none)) := by
  obtain ⟨h1, h2, h3, h4⟩ := hv
  simp [import_body, h1, h2, h3, h4]

theorem clip_loop_lengths_bounded (env : Env) (z : ZipArchive) (dataset_directory : String)
    (total_wavs : Nat) :
    ∀ ws i cl fn, ∀ d ∈ (clip_loop env z dataset_directory total_wavs ws i cl fn).clip_lengths,
      d ∈ cl ∨ (env.MIN_LENGTH ≤ d ∧ d ≤ env.MAX_LENGTH) := by
  intro ws
  induction ws with
  | nil => intro i cl fn d hd; exact Or.inl hd
  | cons wav rest ih =>
    intro i cl fn d hd
    rcases hc : env.convert_audio (clip_path dataset_directory wav) with e | np
    · simp only [clip_loop, hc] at hd
      exact Or.inl hd
    · rcases hg : env.get_duration np with e | dur
      · simp only [clip_loop, hc, hg] at hd
        exact Or.inl hd
      · by_cases hb : env.MIN_LENGTH ≤ dur ∧ dur ≤ env.MAX_LENGTH
        · simp only [clip_loop, hc, hg, hb, if_true] at hd
          rcases ih _ _ _ _ hd with h | h
          · rcases List.mem_append.mp h with h' | h'
            · exact Or.inl h'
            · have : d = dur := by simpa using h'
              exact Or.inr (this ▸ hb)
          · exact Or.inr h
        · simp only [clip_loop, hc, hg, hb, if_false] at hd
          exact Or.inl hd

theorem clip_loop_trace_shapes (env : Env) (z : ZipArchive) (dataset_directory : String)
    (total_wavs : Nat) :
    ∀ ws i cl fn, ∀ a ∈ (clip_loop env z dataset_directory total_wavs ws i cl fn).trace,
      (∃ p d, a = FsAction.writeFile p d) ∨ (∃ t, a = FsAction.logInfo t) := by
  intro ws
  induction ws with
  | nil => intro i cl fn a ha; simp [clip_loop] at ha
  | cons wav rest ih =>
    intro i cl fn a ha
    rcases hc : env.convert_audio (clip_path dataset_directory wav) with e | np
    · simp only [clip_loop, hc] at ha
      rcases List.mem_singleton.mp ha with rfl
      exact Or.inl ⟨_, _, rfl⟩
    · rcases hg : env.get_duration np with e | dur
      · simp only [clip_loop, hc, hg] at ha
        rcases List.mem_singleton.mp ha with rfl
        exact Or.inl ⟨_, _, rfl⟩
      · by_cases hb : env.MIN_LENGTH ≤ dur ∧ dur ≤ env.MAX_LENGTH
        · simp only [clip_loop, hc, hg, hb, if_true] at ha
          rcases List.mem_cons.mp ha with rfl | ha'
          · exact Or.inl ⟨_, _, rfl⟩
          · rcases List.mem_cons.mp ha' with rfl | ha''
            · exact Or.inr ⟨_, rfl⟩
            · exact ih _ _ _ _ ha''
        · simp only [clip_loop, hc, hg, hb, if_false] at ha
          rcases List.mem_singleton.mp ha with rfl
          exact Or.inl ⟨_, _, rfl⟩

theorem clip_loop_no_swap (env : Env) (z : ZipArchive) (dataset_directory : String)
    (total_wavs : Nat) (ws : List String) (i : Nat) (cl : List Rat)
    (fn : List (String × String)) :
    (clip_loop env z dataset_directory total_wavs ws i cl fn).trace.filter is_rename = [] ∧
    (clip_loop env z dataset_directory total_wavs ws i cl fn).trace.filter is_remove = [] := by
  constructor <;>
    (refine List.filter_eq_nil_iff.mpr (fun a ha => ?_);
     rcases clip_loop_trace_shapes env z dataset_directory total_wavs ws i cl fn a ha with
       ⟨p, d, rfl⟩ | ⟨t, rfl⟩ <;> simp [is_rename, is_remove])

end PipelineLemmas

section PipelineTheorems

/-- C1: all four structural validations (metadata.csv at the root, a top-level
`wavs` folder, at least one wav, wav count equal to the non-empty metadata row
count) happen before any filesystem mutation: when any of them fails,
`import_dataset` raises an `AssertionError` and the only action performed is
the unconditional removal of the archive itself — no destination directory or
file is created. -/
theorem import_dataset_validation_first (env : Env) (z : ZipArchive)
    (dataset dataset_directory audio_folder : String) (hv : ¬ structurally_valid z) :
    ∃ msg, import_dataset env z dataset dataset_directory audio_folder =
      ([FsAction.removeFile dataset], some ⟨"AssertionError", msg⟩) := by
  obtain ⟨msg, hmsg⟩ := import_body_invalid env z dataset_directory audio_folder hv
  exact ⟨msg, by simp [import_dataset, hmsg]⟩

/-- C1 witness: an archive with no `metadata.csv`. -/
theorem import_dataset_validation_first_witness :
    ∃ msg, import_dataset sampleEnv badArchive "d.zip" "dest" "dest/wavs" =
      ([FsAction.removeFile "d.zip"], some ⟨"AssertionError", msg⟩) :=
  import_dataset_validation_first sampleEnv badArchive "d.zip" "dest" "dest/wavs" (by decide)

/-- C2: in the per-clip loop, when normalization and probing of a clip
succeed, the loop fails at that clip exactly when the probed duration lies
outside `[MIN_LENGTH, MAX_LENGTH]` (inclusive bounds accepted): out of bounds
it aborts with an `AssertionError` whose message starts with the offending
archive member and contains the measured duration, having performed no action
beyond this clip's write; in bounds it records the clip and continues with the
next one.  Every duration recorded in the duration list of any loop run lies
in `[MIN_LENGTH, MAX_LENGTH]`. -/
theorem clip_loop_duration_check (env : Env) (z : ZipArchive) (dataset_directory : String)
    (total_wavs : Nat) (wav : String) (rest : List String) (i : Nat) (cl : List Rat)
    (fn : List (String × String)) (new_path : String) (duration : Rat)
    (hconv : env.convert_audio (clip_path dataset_directory wav) = Except.ok new_path)
    (hdur : env.get_duration new_path = Except.ok duration) :
    (¬ (env.MIN_LENGTH ≤ duration ∧ duration ≤ env.MAX_LENGTH) →
      clip_loop env z dataset_directory total_wavs (wav :: rest) i cl fn =
        ⟨[FsAction.writeFile (clip_path dataset_directory wav) (z.readFile wav)], cl, fn,
         some ⟨"AssertionError", duration_msg env wav duration⟩⟩) ∧
    ((env.MIN_LENGTH ≤ duration ∧ duration ≤ env.MAX_LENGTH) →
      clip_loop env z dataset_directory total_wavs (wav :: rest) i cl fn =
        { trace := FsAction.writeFile (clip_path dataset_directory wav) (z.readFile wav) ::
            FsAction.logInfo ("Progress - " ++ toString (i + 1) ++ "/" ++ toString total_wavs) ::
            (clip_loop env z dataset_directory total_wavs rest (i + 1) (cl ++ [duration])
              (dictInsert fn (clip_path dataset_directory wav) new_path)).trace
          clip_lengths := (clip_loop env z dataset_directory total_wavs rest (i + 1)
            (cl ++ [duration]) (dictInsert fn (clip_path dataset_directory wav) new_path)).clip_lengths
          filenames := (clip_loop env z dataset_directory total_wavs rest (i + 1)
            (cl ++ [duration]) (dictInsert fn (clip_path dataset_directory wav) new_path)).filenames
          err := (clip_loop env z dataset_directory total_wavs rest (i + 1)
            (cl ++ [duration]) (dictInsert fn (clip_path dataset_directory wav) new_path)).err }) ∧
    (∃ suffix, duration_msg env wav duration = wav ++ suffix) ∧
    (∃ front, duration_msg env wav duration = front ++ (toString duration ++ ")")) ∧
    (∀ ws j fn', ∀ d ∈ (clip_loop env z dataset_directory total_wavs ws j [] fn').clip_lengths,
      env.MIN_LENGTH ≤ d ∧ d ≤ env.MAX_LENGTH) := by
  refine ⟨?_, ?_, ?_, ?_, ?_⟩
  · intro hb
    simp only [clip_loop, hconv, hdur]
    rw [if_neg hb]
  · intro hb
    simp only [clip_loop, hconv, hdur]
    rw [if_pos hb]
  · refine ⟨" is an invalid duration (must be " ++ toString env.MIN_LENGTH ++ "-"
      ++ toString env.MAX_LENGTH ++ ", is " ++ toString duration ++ ")", ?_⟩
    apply String.ext
    simp [duration_msg, List.append_assoc]
  · refine ⟨wav ++ " is an invalid duration (must be " ++ toString env.MIN_LENGTH ++ "-"
      ++ toString env.MAX_LENGTH ++ ", is ", ?_⟩
    apply String.ext
    simp [duration_msg, List.append_assoc]
  · intro ws j fn' d hd
    rcases clip_loop_lengths_bounded env z dataset_directory total_wavs ws j [] fn' d hd with h | h
    · simp at h
    · exact h

/-- C2 witness: a clip probing at 12 seconds against bounds `[1, 10]`. -/
theorem clip_loop_duration_check_witness :
    (¬ ((sampleEnvBad.MIN_LENGTH ≤ (12 : Rat) ∧ (12 : Rat) ≤ sampleEnvBad.MAX_LENGTH)) →
      clip_loop sampleEnvBad sampleArchive "dest" 2 ["wavs/a.wav"] 0 [] [] =
        ⟨[FsAction.writeFile (clip_path "dest" "wavs/a.wav") (sampleArchive.readFile "wavs/a.wav")],
         [], [], some ⟨"AssertionError", duration_msg sampleEnvBad "wavs/a.wav" 12⟩⟩) ∧
    ((sampleEnvBad.MIN_LENGTH ≤ (12 : Rat) ∧ (12 : Rat) ≤ sampleEnvBad.MAX_LENGTH) →
      clip_loop sampleEnvBad sampleArchive "dest" 2 ["wavs/a.wav"] 0 [] [] =
        { trace := FsAction.writeFile (clip_path "dest" "wavs/a.wav")
            (sampleArchive.readFile "wavs/a.wav") ::
            FsAction.logInfo ("Progress - " ++ toString (0 + 1) ++ "/" ++ toString 2) ::
            (clip_loop sampleEnvBad sampleArchive "dest" 2 [] (0 + 1) ([] ++ [12])
              (dictInsert [] (clip_path "dest" "wavs/a.wav")
                (clip_path "dest" "wavs/a.wav" ++ ".flac"))).trace
          clip_lengths := (clip_loop sampleEnvBad sampleArchive "dest" 2 [] (0 + 1) ([] ++ [12])
            (dictInsert [] (clip_path "dest" "wavs/a.wav")
              (clip_path "dest" "wavs/a.wav" ++ ".flac"))).clip_lengths
          filenames := (clip_loop sampleEnvBad sampleArchive "dest" 2 [] (0 + 1) ([] ++ [12])
            (dictInsert [] (clip_path "dest" "wavs/a.wav")
              (clip_path "dest" "wavs/a.wav" ++ ".flac"))).filenames
          err := (clip_loop sampleEnvBad sampleArchive "dest" 2 [] (0 + 1) ([] ++ [12])
            (dictInsert [] (clip_path "dest" "wavs/a.wav")
              (clip_path "dest" "wavs/a.wav" ++ ".flac"))).err }) ∧
    (∃ suffix, duration_msg sampleEnvBad "wavs/a.wav" 12 = "wavs/a.wav" ++ suffix) ∧
    (∃ front, duration_msg sampleEnvBad "wavs/a.wav" 12 = front ++ (toString (12 : Rat) ++ ")")) ∧
    (∀ ws j fn', ∀ d ∈ (clip_loop sampleEnvBad sampleArchive "dest" 2 ws j [] fn').clip_lengths,
      sampleEnvBad.MIN_LENGTH ≤ d ∧ d ≤ sampleEnvBad.MAX_LENGTH) :=
  clip_loop_duration_check sampleEnvBad sampleArchive "dest" 2 "wavs/a.wav" [] 0 [] []
    (clip_path "dest" "wavs/a.wav" ++ ".flac") 12 rfl rfl

/-- C4: when the per-clip loop fails (a duration check, normalization or
probe failure), no rename has been performed and the only removal in the whole
run is the archive itself — every original file written to the destination is
left in place. -/
theorem import_dataset_originals_kept (env : Env) (z : ZipArchive)
    (dataset dataset_directory audio_folder : String) (e : PyError)
    (hfail : (import_loop env z dataset_directory).err = some e) :
    (import_dataset env z dataset dataset_directory audio_folder).1.filter is_rename = [] ∧
    (import_dataset env z dataset dataset_directory audio_folder).1.filter is_remove =
      [FsAction.removeFile dataset] := by
  have hpre1 : (import_pre z dataset_directory audio_folder).filter is_rename = [] := rfl
  have hpre2 : (import_pre z dataset_directory audio_folder).filter is_remove = [] := rfl
  have hloop := clip_loop_no_swap env z dataset_directory (wavs_of z).length (wavs_of z) 0 [] []
  by_cases hv : structurally_valid z
  · have hbody := import_body_valid env z dataset_directory audio_folder hv
    simp only [hfail] at hbody
    constructor
    · simp only [import_dataset, hbody, import_loop, List.filter_append, hpre1, hloop.1]
      rfl
    · simp only [import_dataset, hbody, import_loop, List.filter_append, hpre2, hloop.2]
      rfl
  · obtain ⟨msg, hmsg⟩ := import_body_invalid env z dataset_directory audio_folder hv
    constructor <;> simp [import_dataset, hmsg, is_rename, is_remove]

/-- C4 witness: a run whose first clip probes out of bounds. -/
theorem import_dataset_originals_kept_witness :
    (import_dataset sampleEnvBad sampleArchive "d.zip" "dest" "dest/wavs").1.filter is_rename
      = [] ∧
    (import_dataset sampleEnvBad sampleArchive "d.zip" "dest" "dest/wavs").1.filter is_remove =
      [FsAction.removeFile "d.zip"] :=
  import_dataset_originals_kept sampleEnvBad sampleArchive "d.zip" "dest" "dest/wavs"
    ⟨"AssertionError", duration_msg sampleEnvBad "wavs/a.wav" 12⟩ rfl

end PipelineTheorems

section ArchiveCleanup

theorem mem_dictInsert (k v : String) :
    ∀ d kv, kv ∈ dictInsert d k v → kv.1 = k ∨ kv ∈ d := by
  intro d
  induction d with
  | nil =>
    intro kv hkv
    simp only [dictInsert, List.mem_singleton] at hkv
    exact Or.inl (by rw [hkv])
  | cons hd tl ih =>
    obtain ⟨k', v'⟩ := hd
    intro kv hkv
    by_cases hk : k' = k
    · simp only [dictInsert] at hkv
      rw [if_pos hk] at hkv
      rcases List.mem_cons.mp hkv with rfl | h
      · exact Or.inl rfl
      · exact Or.inr (List.mem_cons_of_mem _ h)
    · simp only [dictInsert] at hkv
      rw [if_neg hk] at hkv
      rcases List.mem_cons.mp hkv with rfl | h
      · exact Or.inr (List.mem_cons_self _ _)
      · rcases ih kv h with h' | h'
        · exact Or.inl h'
        · exact Or.inr (List.mem_cons_of_mem _ h')

theorem clip_loop_filenames_keys (env : Env) (z : ZipArchive) (dataset_directory : String)
    (total_wavs : Nat) :
    ∀ ws i cl fn kv, kv ∈ (clip_loop env z dataset_directory total_wavs ws i cl fn).filenames →
      kv ∈ fn ∨ ∃ w ∈ ws, kv.1 = clip_path dataset_directory w := by
  intro ws
  induction ws with
  | nil => intro i cl fn kv hkv; exact Or.inl hkv
  | cons wav rest ih =>
    intro i cl fn kv hkv
    rcases hc : env.convert_audio (clip_path dataset_directory wav) with e | np
    · simp only [clip_loop, hc] at hkv
      exact Or.inl hkv
    · rcases hg : env.get_duration np with e | dur
      · simp only [clip_loop, hc, hg] at hkv
        exact Or.inl hkv
      · by_cases hb : env.MIN_LENGTH ≤ dur ∧ dur ≤ env.MAX_LENGTH
        · simp only [clip_loop, hc, hg, hb, if_true] at hkv
          rcases ih _ _ _ _ hkv with h | h
          · rcases mem_dictInsert _ _ _ _ h with h' | h'
            · exact Or.inr ⟨wav, List.mem_cons_self _ _, h'⟩
            · exact Or.inl h'
          · obtain ⟨w, hw, hkw⟩ := h
            exact Or.inr ⟨w, List.mem_cons_of_mem _ hw, hkw⟩
        · simp only [clip_loop, hc, hg, hb, if_false] at hkv
          exact Or.inl hkv

theorem mem_swap_actions :
    ∀ (fn : List (String × String)) (a : FsAction), a ∈ swap_actions fn →
      ∃ kv ∈ fn, a = FsAction.removeFile kv.1 ∨ a = FsAction.renameFile kv.2 kv.1 := by
  intro fn
  induction fn with
  | nil => intro a ha; simp [swap_actions] at ha
  | cons kv rest ih =>
    intro a ha
    simp only [swap_actions, List.flatMap_cons] at ha
    rcases List.mem_append.mp ha with h | h
    · rcases List.mem_cons.mp h with rfl | h'
      · exact ⟨kv, List.mem_cons_self _ _, Or.inl rfl⟩
      · rcases List.mem_singleton.mp h' with rfl
        exact ⟨kv, List.mem_cons_self _ _, Or.inr rfl⟩
    · obtain ⟨kv', hkv', hor⟩ := ih a h
      exact ⟨kv', List.mem_cons_of_mem _ hkv', hor⟩

theorem import_body_removeFile_mem (env : Env) (z : ZipArchive)
    (dataset_directory audio_folder : String) (p : String)
    (hmem : FsAction.removeFile p ∈ (import_body env z dataset_directory audio_folder).1) :
    ∃ w ∈ wavs_of z, p = clip_path dataset_directory w := by
  by_cases hv : structurally_valid z
  · have hbody := import_body_valid env z dataset_directory audio_folder hv
    rcases herr : (import_loop env z dataset_directory).err with _ | e
    · simp only [herr] at hbody
      have h1 : (import_body env z dataset_directory audio_folder).1 =
          import_pre z dataset_directory audio_folder
            ++ (import_loop env z dataset_directory).trace
            ++ (FsAction.logInfo "Deleting temp files"
                 :: swap_actions (import_loop env z dataset_directory).filenames)
            ++ [FsAction.logInfo "Creating info file",
                FsAction.saveDatasetInfo (dataset_directory ++ "/metadata.csv")
                  (dataset_directory ++ "/wavs") (dataset_directory ++ "/info.json")
                  (import_loop env z dataset_directory).clip_lengths] := by
        rw [hbody]
      rw [h1] at hmem
      rcases List.mem_append.mp hmem with h | h
      · rcases List.mem_append.mp h with h' | h'
        · rcases List.mem_append.mp h' with h'' | h''
          · simp [import_pre] at h''
          · rcases clip_loop_trace_shapes env z dataset_directory (wavs_of z).length
                (wavs_of z) 0 [] [] _ h'' with ⟨q, dta, hEq⟩ | ⟨t, hEq⟩ <;> simp at hEq
        · rcases List.mem_cons.mp h' with hEq | h''
          · simp at hEq
          · obtain ⟨kv, hkv, hor⟩ := mem_swap_actions _ _ h''
            rcases hor with hEq | hEq
            · have hp : p = kv.1 := by simpa using hEq
              rcases clip_loop_filenames_keys env z dataset_directory (wavs_of z).length
                  (wavs_of z) 0 [] [] kv hkv with h0 | ⟨w, hw, hkw⟩
              · simp at h0
              · exact ⟨w, hw, by rw [hp, hkw]⟩
            · simp at hEq
      · simp at h
    · simp only [herr] at hbody
      have h1 : (import_body env z dataset_directory audio_folder).1 =
          import_pre z dataset_directory audio_folder
            ++ (import_loop env z dataset_directory).trace := by
        rw [hbody]
      rw [h1] at hmem
      rcases List.mem_append.mp hmem with h | h
      · simp [import_pre] at h
      · rcases clip_loop_trace_shapes env z dataset_directory (wavs_of z).length
            (wavs_of z) 0 [] [] _ h with ⟨q, dta, hEq⟩ | ⟨t, hEq⟩ <;> simp at hEq
  · obtain ⟨msg, hmsg⟩ := import_body_invalid env z dataset_directory audio_folder hv
    have h1 : (import_body env z dataset_directory audio_folder).1 = [] := by rw [hmsg]
    rw [h1] at hmem
    simp at hmem

/-- C3: on every run of `import_dataset` — success or failure at any step —
the archive file is removed, the removal is the final action, and (provided
the archive path is not itself one of the destination clip paths) removal is
attempted exactly once. -/
theorem import_dataset_deletes_archive_once (env : Env) (z : ZipArchive)
    (dataset dataset_directory audio_folder : String)
    (hne : ∀ w ∈ wavs_of z, dataset ≠ clip_path dataset_directory w) :
    (import_dataset env z dataset dataset_directory audio_folder).1.count
      (FsAction.removeFile dataset) = 1 ∧
    (import_dataset env z dataset dataset_directory audio_folder).1.getLast? =
      some (FsAction.removeFile dataset) := by
  have hnot : FsAction.removeFile dataset ∉
      (import_body env z dataset_directory audio_folder).1 := by
    intro hmem
    obtain ⟨w, hw, hp⟩ :=
      import_body_removeFile_mem env z dataset_directory audio_folder dataset hmem
    exact hne w hw hp
  constructor
  · show ((import_body env z dataset_directory audio_folder).1
        ++ [FsAction.removeFile dataset]).count (FsAction.removeFile dataset) = 1
    rw [List.count_append, List.count_eq_zero.mpr hnot]
    simp
  · show ((import_body env z dataset_directory audio_folder).1
        ++ [FsAction.removeFile dataset]).getLast? = some (FsAction.removeFile dataset)
    rw [List.getLast?_concat]

/-- C3 witness: a successful two-clip run whose archive path is distinct from
both destination clip paths. -/
theorem import_dataset_deletes_archive_once_witness :
    (import_dataset sampleEnv sampleArchive "d.zip" "dest" "dest/wavs").1.count
      (FsAction.removeFile "d.zip") = 1 ∧
    (import_dataset sampleEnv sampleArchive "d.zip" "dest" "dest/wavs").1.getLast? =
      some (FsAction.removeFile "d.zip") :=
  import_dataset_deletes_archive_once sampleEnv sampleArchive "d.zip" "dest" "dest/wavs"
    (by decide)

end ArchiveCleanup

section ProgressEvents

theorem digitChar_isDigit (n : Nat) (h : n < 10) : (Nat.digitChar n).isDigit = true := by
  interval_cases n <;> decide

theorem mem_toDigitsCore_ten :
    ∀ (fuel n : Nat) (acc : List Char) (c : Char),
      c ∈ Nat.toDigitsCore 10 fuel n acc → c ∈ acc ∨ c.isDigit = true := by
  intro fuel
  induction fuel with
  | zero => intro n acc c hc; exact Or.inl hc
  | succ fuel ih =>
    intro n acc c hc
    simp only [Nat.toDigitsCore] at hc
    by_cases h0 : n / 10 = 0
    · rw [if_pos h0] at hc
      rcases List.mem_cons.mp hc with rfl | h
      · exact Or.inr (digitChar_isDigit _ (Nat.mod_lt _ (by norm_num)))
      · exact Or.inl h
    · rw [if_neg h0] at hc
      rcases ih _ _ _ hc with h | h
      · rcases List.mem_cons.mp h with rfl | h'
        · exact Or.inr (digitChar_isDigit _ (Nat.mod_lt _ (by norm_num)))
        · exact Or.inl h'
      · exact Or.inr h

theorem repr_char_isDigit (n : Nat) : ∀ c ∈ (Nat.repr n).data, c.isDigit = true := by
  intro c hc
  have hc' : c ∈ Nat.toDigitsCore 10 (n + 1) n [] := hc
  rcases mem_toDigitsCore_ten (n + 1) n [] c hc' with h | h
  · simp at h
  · exact h

theorem toString_nat_no_dash (n : Nat) : '-' ∉ (toString n).data := by
  intro hc
  exact absurd (repr_char_isDigit n '-' hc) (by decide)

theorem toString_nat_no_slash (n : Nat) : '/' ∉ (toString n).data := by
  intro hc
  exact absurd (repr_char_isDigit n '/' hc) (by decide)

theorem splitOnChar_of_not_mem (c : Char) :
    ∀ l : List Char, c ∉ l → splitOnChar c l = [l] := by
  intro l
  induction l with
  | nil => intro _; rfl
  | cons x xs ih =>
    intro h
    have hx : ¬ x = c := fun hh => h (List.mem_cons.mpr (Or.inl hh.symm))
    have hxs : c ∉ xs := fun hh => h (List.mem_cons_of_mem _ hh)
    simp only [splitOnChar, if_neg hx, ih hxs]

theorem splitOnChar_append (c : Char) :
    ∀ l₁ l₂ : List Char, c ∉ l₁ →
      splitOnChar c (l₁ ++ c :: l₂) = l₁ :: splitOnChar c l₂ := by
  intro l₁
  induction l₁ with
  | nil =>
    intro l₂ _
    simp [splitOnChar]
  | cons x xs ih =>
    intro l₂ h
    have hx : ¬ x = c := fun hh => h (List.mem_cons.mpr (Or.inl hh.symm))
    have hxs : c ∉ xs := fun hh => h (List.mem_cons_of_mem _ hh)
    simp [splitOnChar, if_neg hx, ih l₂ hxs]

theorem emit_progress_line (a b : String) (ha1 : '-' ∉ a.data) (hb1 : '-' ∉ b.data)
    (ha2 : '/' ∉ a.data) (hb2 : '/' ∉ b.data) :
    SocketIOHandler.emit ("Progress - " ++ a ++ "/" ++ b) =
      Except.ok (Event.progress (" " ++ a) b) := by
  have hdata : ("Progress - " ++ a ++ "/" ++ b).data =
      ['P', 'r', 'o', 'g', 'r', 'e', 's', 's', ' ']
        ++ '-' :: (' ' :: (a.data ++ '/' :: b.data)) := by
    show ((['P', 'r', 'o', 'g', 'r', 'e', 's', 's', ' ', '-', ' '] ++ a.data) ++ ['/'])
        ++ b.data = _
    simp [List.append_assoc]
  have hstart : pyStartsWith ("Progress - " ++ a ++ "/" ++ b) "Progress" = true := by
    show List.isPrefixOf ['P', 'r', 'o', 'g', 'r', 'e', 's', 's']
        ("Progress - " ++ a ++ "/" ++ b).data = true
    rw [hdata]
    simp
  have hnm : '-' ∉ ' ' :: (a.data ++ '/' :: b.data) := by
    intro hm
    rcases List.mem_cons.mp hm with h | h
    · exact absurd h (by decide)
    · rcases List.mem_append.mp h with h' | h'
      · exact ha1 h'
      · rcases List.mem_cons.mp h' with h'' | h''
        · exact absurd h'' (by decide)
        · exact hb1 h''
  have hsplit1 : pySplit ("Progress - " ++ a ++ "/" ++ b) '-' =
      ["Progress ", ⟨' ' :: (a.data ++ '/' :: b.data)⟩] := by
    show (splitOnChar '-' ("Progress - " ++ a ++ "/" ++ b).data).map
        (fun l => (⟨l⟩ : String)) = _
    rw [hdata, splitOnChar_append '-' ['P', 'r', 'o', 'g', 'r', 'e', 's', 's', ' ']
        (' ' :: (a.data ++ '/' :: b.data)) (by decide),
      splitOnChar_of_not_mem '-' (' ' :: (a.data ++ '/' :: b.data)) hnm]
    rfl
  have hnm2 : '/' ∉ ' ' :: a.data := by
    intro hm
    rcases List.mem_cons.mp hm with h | h
    · exact absurd h (by decide)
    · exact ha2 h
  have hsplit2 : pySplit ⟨' ' :: (a.data ++ '/' :: b.data)⟩ '/' = [" " ++ a, b] := by
    show (splitOnChar '/' (' ' :: (a.data ++ '/' :: b.data))).map
        (fun l => (⟨l⟩ : String)) = _
    have hshape : ' ' :: (a.data ++ '/' :: b.data) = (' ' :: a.data) ++ '/' :: b.data := by
      simp
    rw [hshape, splitOnChar_append '/' (' ' :: a.data) b.data hnm2,
      splitOnChar_of_not_mem '/' b.data hb2]
    rfl
  simp only [SocketIOHandler.emit, hstart, if_true, hsplit1, hsplit2]

theorem progress_events_append (l₁ l₂ : List FsAction) :
    progress_events (l₁ ++ l₂) = progress_events l₁ ++ progress_events l₂ :=
  List.filterMap_append _ _ _

theorem progress_events_swap (fn : List (String × String)) :
    progress_events (swap_actions fn) = [] := by
  induction fn with
  | nil => rfl
  | cons kv rest ih =>
    show progress_events (FsAction.removeFile kv.1 :: FsAction.renameFile kv.2 kv.1
        :: swap_actions rest) = []
    simp only [progress_events, List.filterMap_cons]
    exact ih

theorem clip_loop_progress (env : Env) (z : ZipArchive) (dataset_directory : String)
    (total_wavs : Nat) :
    ∀ ws i cl fn, (clip_loop env z dataset_directory total_wavs ws i cl fn).err = none →
      progress_events (clip_loop env z dataset_directory total_wavs ws i cl fn).trace =
        (List.range ws.length).map
          (fun j => Event.progress (" " ++ toString (i + j + 1)) (toString total_wavs)) := by
  intro ws
  induction ws with
  | nil => intro i cl fn _; rfl
  | cons wav rest ih =>
    intro i cl fn herr
    rcases hc : env.convert_audio (clip_path dataset_directory wav) with e | np
    · simp only [clip_loop, hc] at herr
      exact absurd herr (by simp)
    · rcases hg : env.get_duration np with e | dur
      · simp only [clip_loop, hc, hg] at herr
        exact absurd herr (by simp)
      · by_cases hb : env.MIN_LENGTH ≤ dur ∧ dur ≤ env.MAX_LENGTH
        · have herr' : (clip_loop env z dataset_directory total_wavs rest (i + 1)
              (cl ++ [dur]) (dictInsert fn (clip_path dataset_directory wav) np)).err
                = none := by
            simpa only [clip_loop, hc, hg, hb, if_true] using herr
          have hemit := emit_progress_line (toString (i + 1)) (toString total_wavs)
            (toString_nat_no_dash _) (toString_nat_no_dash _)
            (toString_nat_no_slash _) (toString_nat_no_slash _)
          have ih' := ih (i + 1) (cl ++ [dur])
            (dictInsert fn (clip_path dataset_directory wav) np) herr'
          simp only [clip_loop, hc, hg, hb, and_self, if_true]
          simp only [progress_events, List.filterMap_cons, hemit] at ih' ⊢
          rw [ih']
          simp only [List.length_cons]
          rw [List.range_succ_eq_map, List.map_cons, List.map_map]
          congr 1
          refine List.map_congr_left (fun a _ => ?_)
          simp only [Function.comp_apply]
          have hj : i + 1 + a + 1 = i + Nat.succ a + 1 := by omega
          rw [hj]
        · simp only [clip_loop, hc, hg, hb, if_false] at herr
          exact absurd herr (by simp)

/-- C8: on a successful run over `N` clips, the progress events delivered by
bridging the run's log lines are, in order, exactly one per clip: the `i`-th
(0-based) clip yields `progress` with `number` the decimal of `i + 1`
(preceded by the space the split leaves) and `total` the decimal of `N`. -/
theorem import_dataset_progress_events (env : Env) (z : ZipArchive)
    (dataset dataset_directory audio_folder : String)
    (hok : (import_dataset env z dataset dataset_directory audio_folder).2 = none) :
    progress_events (import_dataset env z dataset dataset_directory audio_folder).1 =
      (List.range (wavs_of z).length).map
        (fun j => Event.progress (" " ++ toString (j + 1))
          (toString (wavs_of z).length)) := by
  by_cases hv : structurally_valid z
  · have hbody := import_body_valid env z dataset_directory audio_folder hv
    rcases herr : (import_loop env z dataset_directory).err with _ | e
    · simp only [herr] at hbody
      have h1 : (import_dataset env z dataset dataset_directory audio_folder).1 =
          import_pre z dataset_directory audio_folder
            ++ (import_loop env z dataset_directory).trace
            ++ (FsAction.logInfo "Deleting temp files"
                 :: swap_actions (import_loop env z dataset_directory).filenames)
            ++ [FsAction.logInfo "Creating info file",
                FsAction.saveDatasetInfo (dataset_directory ++ "/metadata.csv")
                  (dataset_directory ++ "/wavs") (dataset_directory ++ "/info.json")
                  (import_loop env z dataset_directory).clip_lengths]
            ++ [FsAction.removeFile dataset] := by
        show (import_body env z dataset_directory audio_folder).1
            ++ [FsAction.removeFile dataset] = _
        rw [hbody]
      rw [h1, progress_events_append, progress_events_append, progress_events_append,
        progress_events_append]
      have hA : progress_events (import_pre z dataset_directory audio_folder) = [] := rfl
      have hC : progress_events (FsAction.logInfo "Deleting temp files"
          :: swap_actions (import_loop env z dataset_directory).filenames) = [] := by
        have hd : SocketIOHandler.emit "Deleting temp files" =
            Except.ok (Event.logs "Deleting temp files") := rfl
        simp only [progress_events, List.filterMap_cons, hd]
        exact progress_events_swap _
      have hE : progress_events [FsAction.logInfo "Creating info file",
          FsAction.saveDatasetInfo (dataset_directory ++ "/metadata.csv")
            (dataset_directory ++ "/wavs") (dataset_directory ++ "/info.json")
            (import_loop env z dataset_directory).clip_lengths] = [] := rfl
      have hR : progress_events [FsAction.removeFile dataset] = [] := rfl
      rw [hA, hC, hE, hR]
      simp only [import_loop]
      rw [clip_loop_progress env z dataset_directory (wavs_of z).length
        (wavs_of z) 0 [] [] herr]
      simp only [List.nil_append, List.append_nil]
      refine List.map_congr_left (fun j _ => ?_)
      have hj : 0 + j + 1 = j + 1 := by omega
      rw [hj]
    · simp only [herr] at hbody
      have h2 : (import_dataset env z dataset dataset_directory audio_folder).2 = some e := by
        show (import_body env z dataset_directory audio_folder).2 = some e
        rw [hbody]
      rw [h2] at hok
      exact absurd hok (by simp)
  · obtain ⟨msg, hmsg⟩ := import_body_invalid env z dataset_directory audio_folder hv
    have h2 : (import_dataset env z dataset dataset_directory audio_folder).2 =
        some ⟨"AssertionError", msg⟩ := by
      show (import_body env z dataset_directory audio_folder).2 = _
      rw [hmsg]
    rw [h2] at hok
    exact absurd hok (by simp)

/-- C8 witness: the successful two-clip run. -/
theorem import_dataset_progress_events_witness :
    progress_events (import_dataset sampleEnv sampleArchive "d.zip" "dest" "dest/wavs").1 =
      (List.range (wavs_of sampleArchive).length).map
        (fun j => Event.progress (" " ++ toString (j + 1))
          (toString (wavs_of sampleArchive).length)) :=
  import_dataset_progress_events sampleEnv sampleArchive "d.zip" "dest" "dest/wavs" rfl

end ProgressEvents
